import Mathlib

/-!
Verification of the metric evaluation engine of the impact dashboard
(`dashboard.py`): progress calculation, status classification, latest
observation lookup, evidence grading, trend projection, value
formatting, polarity classification and summary aggregation.

Numeric cell values are embedded as `PyVal`: either a rational number or
`nan` (the missing/NaN cell of the dataframe).  The comparison and
arithmetic operations on `PyVal` mirror the float/NaN semantics the code
relies on: every comparison involving NaN is false, and arithmetic with
NaN yields NaN.
-/

inductive PyVal where
  | nan : PyVal
  | num : ℚ → PyVal
deriving DecidableEq

namespace PyVal

/-- `pd.isna(v)`. -/
def isna : PyVal → Bool
  | nan => true
  | num _ => false

/-- Float `<`: any comparison with NaN is false. -/
def flt : PyVal → PyVal → Bool
  | num a, num b => decide (a < b)
  | _, _ => false

/-- Float `<=`: any comparison with NaN is false. -/
def fle : PyVal → PyVal → Bool
  | num a, num b => decide (a ≤ b)
  | _, _ => false

/-- Float `==`: NaN is not equal to anything, including itself. -/
def feq : PyVal → PyVal → Bool
  | num a, num b => decide (a = b)
  | _, _ => false

/-- Float subtraction; NaN propagates. -/
def fsub : PyVal → PyVal → PyVal
  | num a, num b => num (a - b)
  | _, _ => nan

/-- Float multiplication; NaN propagates.  (Overflow to infinity is out
of scope: the engine only multiplies by 100.) -/
def fmul : PyVal → PyVal → PyVal
  | num a, num b => num (a * b)
  | _, _ => nan

/-- Float division; NaN propagates.  The zero-divisor case is modelled
as NaN; in `calculate_progress` the divisor is checked against zero
before any division, so that case is unreachable there. -/
def fdiv : PyVal → PyVal → PyVal
  | num a, num b => if b = 0 then nan else num (a / b)
  | _, _ => nan

end PyVal

open PyVal

/-- Python `min(a, b)`: keeps `a` unless `b < a`, so `min(100, nan) = 100`. -/
def pyMin (a b : PyVal) : PyVal := if b.flt a then b else a

/-- Python `max(a, b)`: keeps `a` unless `a < b`, so `max(0, nan) = 0`. -/
def pyMax (a b : PyVal) : PyVal := if a.flt b then b else a

/-- `calculate_progress(baseline, actual, target, lower_is_better)` from
`dashboard.py`.  Returns `none` for the `(None, None, None)` sentinel and
otherwise `some (progress, status, color)`. -/
def calculate_progress (baseline actual target : PyVal) (lower_is_better : Bool) :
    Option (PyVal × String × String) :=
  if baseline.isna || target.isna then none
  else
    let progress? : Option PyVal :=
      if lower_is_better then
        -- For metrics where lower is better (e.g., equity gaps, cost)
        if actual.fle target then some (num 100)
        else
          let denominator := baseline.fsub target
          if denominator.feq (num 0) then none
          else some (pyMax (num 0) (pyMin (num 100)
            (((baseline.fsub actual).fdiv denominator).fmul (num 100))))
      else
        -- Standard calculation
        let denominator := target.fsub baseline
        if denominator.feq (num 0) then none
        else some (pyMax (num 0) (pyMin (num 100)
          (((actual.fsub baseline).fdiv denominator).fmul (num 100))))
    match progress? with
    | none => none
    | some progress =>
      -- Classify status
      if (num 80).fle progress then some (progress, "On Track", "green")
      else if (num 50).fle progress then some (progress, "At Risk", "orange")
      else some (progress, "Off Track", "red")

/-- The clamp `max(0, min(100, x))` on exact rationals. -/
def clampQ (x : ℚ) : ℚ := max 0 (min 100 x)

theorem pyMin_num (a b : ℚ) : pyMin (num a) (num b) = num (min a b) := by
  simp only [pyMin, PyVal.flt]
  split <;> rename_i h <;> simp at h
  · rw [min_eq_right (le_of_lt h)]
  · rw [min_eq_left h]

theorem pyMax_num (a b : ℚ) : pyMax (num a) (num b) = num (max a b) := by
  simp only [pyMax, PyVal.flt]
  split <;> rename_i h <;> simp at h
  · rw [max_eq_right (le_of_lt h)]
  · rw [max_eq_left h]

/-- The clamp in `calculate_progress`, applied to a real number, is the
exact rational clamp. -/
theorem clamp_num (x : ℚ) :
    pyMax (num 0) (pyMin (num 100) (num x)) = num (clampQ x) := by
  rw [pyMin_num, pyMax_num, clampQ]

/-- The clamp applied to NaN yields exactly 100: `min(100, nan)`
keeps 100 because `nan < 100` is false, then `max(0, 100) = 100`. -/
theorem clamp_nan : pyMax (num 0) (pyMin (num 100) nan) = num 100 := by
  rfl

/-- The progress value computed by `calculate_progress` on fully numeric
input, as an exact rational (the factored-out numeric core of lines
194-208 of `dashboard.py`). -/
def progressQ (b a t : ℚ) (lib : Bool) : Option ℚ :=
  if lib then
    if a ≤ t then some 100
    else if b - t = 0 then none
    else some (clampQ ((b - a) / (b - t) * 100))
  else
    if t - b = 0 then none
    else some (clampQ ((a - b) / (t - b) * 100))

/-- The status classification step of `calculate_progress` (lines
211-219 of `dashboard.py`) on an exact rational progress value. -/
def statusFor (q : ℚ) : String × String :=
  if 80 ≤ q then ("On Track", "green")
  else if 50 ≤ q then ("At Risk", "orange")
  else ("Off Track", "red")

theorem fle_num (a b : ℚ) : (num a).fle (num b) = decide (a ≤ b) := rfl

theorem feq_num (a b : ℚ) : (num a).feq (num b) = decide (a = b) := rfl

theorem fsub_num (a b : ℚ) : (num a).fsub (num b) = num (a - b) := rfl

theorem fmul_num (a b : ℚ) : (num a).fmul (num b) = num (a * b) := rfl

theorem fdiv_num (a b : ℚ) (h : b ≠ 0) : (num a).fdiv (num b) = num (a / b) := by
  simp [PyVal.fdiv, h]

/-- The status classification tail of `calculate_progress`, expressed
through `statusFor`. -/
theorem classify_eq (x : ℚ) :
    (if (num 80).fle (num x) then
       (some (num x, "On Track", "green") : Option (PyVal × String × String))
     else if (num 50).fle (num x) then some (num x, "At Risk", "orange")
     else some (num x, "Off Track", "red")) =
    some (num x, (statusFor x).1, (statusFor x).2) := by
  simp only [fle_num, statusFor]
  by_cases h80 : (80 : ℚ) ≤ x
  · simp [h80]
  · by_cases h50 : (50 : ℚ) ≤ x <;> simp [h80, h50]

/-- `calculate_progress` on fully numeric input equals the exact
rational computation followed by the status classification. -/
theorem calculate_progress_num (b a t : ℚ) (lib : Bool) :
    calculate_progress (num b) (num a) (num t) lib =
      (progressQ b a t lib).map (fun q => (num q, (statusFor q).1, (statusFor q).2)) := by
  cases lib with
  | true =>
    by_cases hat : a ≤ t
    · have h1 : (num a).fle (num t) = true := by simp [fle_num, hat]
      simp only [calculate_progress, PyVal.isna, Bool.or_self, Bool.false_eq_true,
        if_false, if_true, h1, progressQ, if_pos hat, Option.map_some']
      exact classify_eq 100
    · have h1 : (num a).fle (num t) = false := by simp [fle_num, hat]
      by_cases hbt : b - t = 0
      · have h2 : ((num b).fsub (num t)).feq (num 0) = true := by
          simp [fsub_num, feq_num, hbt]
        simp [calculate_progress, PyVal.isna, h1, h2, progressQ, hat, hbt]
      · have h2 : ((num b).fsub (num t)).feq (num 0) = false := by
          simp [fsub_num, feq_num, hbt]
        have h3 : pyMax (num 0) (pyMin (num 100)
            ((((num b).fsub (num a)).fdiv ((num b).fsub (num t))).fmul (num 100))) =
            num (clampQ ((b - a) / (b - t) * 100)) := by
          rw [fsub_num, fsub_num, fdiv_num _ _ hbt, fmul_num, clamp_num]
        simp only [calculate_progress, PyVal.isna, Bool.or_self, Bool.false_eq_true,
          if_false, if_true, h1, h2, h3, progressQ, if_neg hat, if_neg hbt,
          Option.map_some']
        exact classify_eq _
  | false =>
    by_cases hbt : t - b = 0
    · have h2 : ((num t).fsub (num b)).feq (num 0) = true := by
        simp [fsub_num, feq_num, hbt]
      simp [calculate_progress, PyVal.isna, h2, progressQ, hbt]
    · have h2 : ((num t).fsub (num b)).feq (num 0) = false := by
        simp [fsub_num, feq_num, hbt]
      have h3 : pyMax (num 0) (pyMin (num 100)
          ((((num a).fsub (num b)).fdiv ((num t).fsub (num b))).fmul (num 100))) =
          num (clampQ ((a - b) / (t - b) * 100)) := by
        rw [fsub_num, fsub_num, fdiv_num _ _ hbt, fmul_num, clamp_num]
      simp only [calculate_progress, PyVal.isna, Bool.or_self, Bool.false_eq_true,
        if_false, if_true, h2, h3, progressQ, if_neg hbt, Option.map_some']
      exact classify_eq _

/-- Thresholds realised by the status classification step. -/
theorem statusFor_spec (q : ℚ) :
    (80 ≤ q → (statusFor q).1 = "On Track")
  ∧ (50 ≤ q ∧ q < 80 → (statusFor q).1 = "At Risk")
  ∧ (q < 50 → (statusFor q).1 = "Off Track") := by
  refine ⟨fun h => by simp [statusFor, h], fun h => ?_, fun h => ?_⟩
  · rw [statusFor, if_neg (not_le.mpr h.2), if_pos h.1]
  · rw [statusFor, if_neg (not_le.mpr (lt_trans h (by norm_num))),
      if_neg (not_le.mpr h)]

/-- `calculate_progress` with a NaN actual value and numeric baseline and
target: the NaN never reaches the sentinel; the clamp resolves it to 100
unless the denominator test fires. -/
theorem calculate_progress_nan_actual (b t : ℚ) (lib : Bool) :
    calculate_progress (num b) nan (num t) lib =
      if (if lib then b - t else t - b) = 0 then none
      else some (num 100, "On Track", "green") := by
  cases lib with
  | true =>
    by_cases hbt : b - t = 0
    · simp [calculate_progress, PyVal.isna, PyVal.fle, PyVal.fsub, PyVal.feq, hbt]
    · norm_num [calculate_progress, PyVal.isna, PyVal.fle, PyVal.fsub, PyVal.feq, PyVal.fdiv,
        PyVal.fmul, hbt, pyMin, pyMax, PyVal.flt]
  | false =>
    by_cases hbt : t - b = 0
    · simp [calculate_progress, PyVal.isna, PyVal.fsub, PyVal.feq, hbt]
    · norm_num [calculate_progress, PyVal.isna, PyVal.fle, PyVal.fsub, PyVal.feq, PyVal.fdiv,
        PyVal.fmul, hbt, pyMin, pyMax, PyVal.flt]

/-- C1: for every non-null baseline `b` and target `t`,
`calculate_progress` returns: under lower-is-better, progress 100
whenever `actual ≤ t`, and otherwise (when `b - t ≠ 0`)
`clamp(0, 100, (b - actual)/(b - t) * 100)`; under higher-is-better
(when `t - b ≠ 0`) `clamp(0, 100, (actual - b)/(t - b) * 100)`; and for
`b ≠ t` with `actual = t` the progress is exactly 100 with status
"On Track" for both polarities. -/
theorem C1_progress_formula (b t a : ℚ) :
    (a ≤ t →
      calculate_progress (num b) (num a) (num t) true =
        some (num 100, "On Track", "green"))
  ∧ (¬ a ≤ t → b ≠ t →
      calculate_progress (num b) (num a) (num t) true =
        some (num (clampQ ((b - a) / (b - t) * 100)),
          (statusFor (clampQ ((b - a) / (b - t) * 100))).1,
          (statusFor (clampQ ((b - a) / (b - t) * 100))).2))
  ∧ (t ≠ b →
      calculate_progress (num b) (num a) (num t) false =
        some (num (clampQ ((a - b) / (t - b) * 100)),
          (statusFor (clampQ ((a - b) / (t - b) * 100))).1,
          (statusFor (clampQ ((a - b) / (t - b) * 100))).2))
  ∧ (b ≠ t →
      calculate_progress (num b) (num t) (num t) true =
        some (num 100, "On Track", "green")
      ∧ calculate_progress (num b) (num t) (num t) false =
        some (num 100, "On Track", "green")) := by
  refine ⟨fun h => ?_, fun h1 h2 => ?_, fun h => ?_, fun h => ⟨?_, ?_⟩⟩
  · rw [calculate_progress_num]
    norm_num [progressQ, h, statusFor]
  · rw [calculate_progress_num]
    simp [progressQ, h1, sub_ne_zero.mpr h2]
  · rw [calculate_progress_num]
    simp [progressQ, sub_ne_zero.mpr h]
  · rw [calculate_progress_num]
    norm_num [progressQ, statusFor]
  · rw [calculate_progress_num]
    have ht : t - b ≠ 0 := sub_ne_zero.mpr (Ne.symm h)
    simp only [progressQ, if_neg ht, Bool.false_eq_true, if_false, Option.map_some']
    rw [div_self ht]
    norm_num [clampQ, statusFor]

theorem C1_witness :
    calculate_progress (num 0) (num 100) (num 100) false =
      some (num 100, "On Track", "green") :=
  ((C1_progress_formula 0 100 100).2.2.2 (by norm_num)).2

/-- C2: `calculate_progress` is a total function (the embedding of a
function that never raises): a NaN baseline or target yields the
sentinel `none`, and so does a zero applicable denominator (lower is
better with actual above the target, or higher is better with target
equal to baseline). -/
theorem C2_no_failure (b : ℚ) (a t s : PyVal) (lib : Bool) :
    calculate_progress nan a t lib = none
  ∧ calculate_progress s a nan lib = none
  ∧ calculate_progress (num b) a (num b) false = none
  ∧ (∀ aq : ℚ, b < aq → calculate_progress (num b) (num aq) (num b) true = none) := by
  refine ⟨?_, ?_, ?_, fun aq haq => ?_⟩
  · simp [calculate_progress, PyVal.isna]
  · cases s <;> simp [calculate_progress, PyVal.isna]
  · simp [calculate_progress, PyVal.isna, PyVal.fsub, PyVal.feq]
  · rw [calculate_progress_num]
    simp [progressQ, not_le.mpr haq]

theorem C2_witness :
    calculate_progress nan (num 7) (num 1) true = none
  ∧ calculate_progress (num 2) (num 7) nan true = none
  ∧ calculate_progress (num 5) (num 7) (num 5) false = none
  ∧ calculate_progress (num 5) (num 6) (num 5) true = none := by
  obtain ⟨h1, h2, h3, h4⟩ := C2_no_failure 5 (num 7) (num 1) (num 2) true
  exact ⟨h1, h2, h3, h4 6 (by norm_num)⟩

/-- C3: every non-`none` result of `calculate_progress` carries a status
obeying the inclusive thresholds (≥80 on track, 50–79 at risk, <50 off
track), and the three concrete higher-is-better examples evaluate as
specified. -/
theorem C3_status_thresholds :
    (∀ (b a t : PyVal) (lib : Bool) (q : ℚ) (st c : String),
      calculate_progress b a t lib = some (num q, st, c) →
        (80 ≤ q → st = "On Track")
        ∧ (50 ≤ q ∧ q < 80 → st = "At Risk")
        ∧ (q < 50 → st = "Off Track"))
  ∧ calculate_progress (num 0) (num 80) (num 100) false =
      some (num 80, "On Track", "green")
  ∧ calculate_progress (num 0) (num 60) (num 100) false =
      some (num 60, "At Risk", "orange")
  ∧ calculate_progress (num 0) (num 30) (num 100) false =
      some (num 30, "Off Track", "red") := by
  refine ⟨?_, ?_, ?_, ?_⟩
  case refine_2 =>
    rw [calculate_progress_num]; norm_num [progressQ, statusFor, clampQ]
  case refine_3 =>
    rw [calculate_progress_num]; norm_num [progressQ, statusFor, clampQ]
  case refine_4 =>
    rw [calculate_progress_num]; norm_num [progressQ, statusFor, clampQ]
  intro b a t lib q st c h
  cases b with
  | nan => simp [calculate_progress, PyVal.isna] at h
  | num bq =>
    cases t with
    | nan => simp [calculate_progress, PyVal.isna] at h
    | num tq =>
      cases a with
      | num aq =>
        rw [calculate_progress_num] at h
        cases hp : progressQ bq aq tq lib with
        | none => rw [hp] at h; simp at h
        | some p =>
          rw [hp] at h
          simp only [Option.map_some', Option.some.injEq, Prod.mk.injEq,
            PyVal.num.injEq] at h
          obtain ⟨hq, hst, -⟩ := h
          subst hq
          rw [← hst]
          exact statusFor_spec p
      | nan =>
        rw [calculate_progress_nan_actual] at h
        by_cases hd : (if lib then bq - tq else tq - bq) = 0
        · rw [if_pos hd] at h; simp at h
        · rw [if_neg hd] at h
          simp only [Option.some.injEq, Prod.mk.injEq, PyVal.num.injEq] at h
          obtain ⟨hq, hst, -⟩ := h
          subst hq
          rw [← hst]
          refine ⟨fun _ => rfl, fun hcon => ?_, fun hcon => ?_⟩
          · exact absurd hcon.2 (by norm_num)
          · exact absurd hcon (by norm_num)

theorem C3_witness :
    (80 ≤ (80 : ℚ) → "On Track" = "On Track")
  ∧ (50 ≤ (60 : ℚ) ∧ (60 : ℚ) < 80 → "At Risk" = "At Risk")
  ∧ ((30 : ℚ) < 50 → "Off Track" = "Off Track") :=
  ⟨(C3_status_thresholds.1 (num 0) (num 80) (num 100) false 80 "On Track" "green"
      C3_status_thresholds.2.1).1,
   (C3_status_thresholds.1 (num 0) (num 60) (num 100) false 60 "At Risk" "orange"
      C3_status_thresholds.2.2.1).2.1,
   (C3_status_thresholds.1 (num 0) (num 30) (num 100) false 30 "Off Track" "red"
      C3_status_thresholds.2.2.2).2.2⟩

/-- C10: `calculate_progress` never tests the actual value for NaN; with
numeric baseline and target and a nonzero denominator (`b ≠ t`), a NaN
actual yields progress 100 with status "On Track" under both polarities,
because every comparison against NaN is false and the clamp then keeps
its bound of 100. -/
theorem C10_nan_actual_resolves_to_100 (b t : ℚ) (h : b ≠ t) :
    calculate_progress (num b) nan (num t) true = some (num 100, "On Track", "green")
  ∧ calculate_progress (num b) nan (num t) false = some (num 100, "On Track", "green") := by
  constructor
  · rw [calculate_progress_nan_actual, if_neg (by simpa using sub_ne_zero.mpr h)]
  · rw [calculate_progress_nan_actual, if_neg (by simpa using sub_ne_zero.mpr (Ne.symm h))]

theorem C10_witness :
    calculate_progress (num 0) nan (num 100) true = some (num 100, "On Track", "green")
  ∧ calculate_progress (num 0) nan (num 100) false = some (num 100, "On Track", "green") :=
  C10_nan_actual_resolves_to_100 0 100 (by norm_num)

/-- Python's `str.lower()`: lowercase each character (the source's
metric names are ASCII, for which this is exactly `Char.toLower`
mapped over the characters). -/
def strToLower (s : String) : String := String.mk (s.data.map Char.toLower)

/-- Python's substring containment `needle in hay`, on character
lists. -/
def strContains : List Char → List Char → Bool
  | [], needle => needle.isEmpty
  | c :: t, needle => needle.isPrefixOf (c :: t) || strContains t needle

/-- `strContains` decides genuine substring containment. -/
theorem strContains_iff (hay needle : List Char) :
    strContains hay needle = true ↔ ∃ l r, hay = l ++ needle ++ r := by
  induction hay with
  | nil =>
    simp only [strContains, List.isEmpty_iff]
    constructor
    · rintro rfl; exact ⟨[], [], rfl⟩
    · rintro ⟨l, r, h⟩
      rcases List.append_eq_nil.mp (List.append_eq_nil.mp h.symm).1 with ⟨-, h2⟩
      exact h2
  | cons c t ih =>
    simp only [strContains, Bool.or_eq_true, List.isPrefixOf_iff_prefix, ih]
    constructor
    · rintro (⟨r, hr⟩ | ⟨l, r, rfl⟩)
      · exact ⟨[], r, by simp [hr]⟩
      · exact ⟨c :: l, r, rfl⟩
    · rintro ⟨l, r, h⟩
      cases l with
      | nil =>
        left
        exact ⟨r, by simpa using h.symm⟩
      | cons x l' =>
        right
        simp only [List.cons_append, List.cons.injEq] at h
        exact ⟨l', r, h.2⟩

/-- A metric-name hint matches a keyword list when some keyword occurs
case-insensitively as a substring of the name. -/
def matchesKeyword (metric_name : String) (keywords : List String) : Prop :=
  ∃ kw ∈ keywords, ∃ l r, (strToLower metric_name).data = l ++ kw.data ++ r

/-- `is_lower_better_metric(metric_name)` from `dashboard.py`. -/
def is_lower_better_metric (metric_name : String) : Bool :=
  let lower_is_better_keywords := ["gap", "cost", "ratio", "debt", "time to", "wait"]
  let metric_lower := strToLower metric_name
  lower_is_better_keywords.any (fun keyword => strContains metric_lower.data keyword.data)

/-- C8: the polarity classifier returns lower-is-better exactly for the
metric names containing (case-insensitively) one of the six fixed
keywords, and higher-is-better (`false`) for every other string; it is a
total function, with no error outcome. -/
theorem C8_polarity_classifier (metric_name : String) :
    is_lower_better_metric metric_name = true ↔
      matchesKeyword metric_name ["gap", "cost", "ratio", "debt", "time to", "wait"] := by
  simp only [is_lower_better_metric, List.any_eq_true, strContains_iff, matchesKeyword]

/-- The Bool keyword test used by the classifiers, as a proposition. -/
theorem anyKeyword_iff (metric_name : String) (keywords : List String) :
    (keywords.any (fun keyword => strContains (strToLower metric_name).data keyword.data)) = true
      ↔ matchesKeyword metric_name keywords := by
  simp [List.any_eq_true, strContains_iff, matchesKeyword]

/-- Round to nearest integer, ties to even: the rounding used by
Python's fixed-point formatting, on exact values. -/
def roundHalfEven (q : ℚ) : ℤ :=
  if q - ⌊q⌋ < 1 / 2 then ⌊q⌋
  else if 1 / 2 < q - ⌊q⌋ then ⌊q⌋ + 1
  else if ⌊q⌋ % 2 = 0 then ⌊q⌋ else ⌊q⌋ + 1

/-- Group a reversed digit list into blocks of three (working from the
least significant digit). -/
def chunk3 : List Char → List (List Char)
  | [] => []
  | [a] => [[a]]
  | [a, b] => [[a, b]]
  | a :: b :: c :: rest => [a, b, c] :: chunk3 rest

/-- Insert thousands separators into a digit string. -/
def commaGroup (s : String) : String :=
  String.mk (((chunk3 s.data.reverse).intersperse [',']).flatten.reverse)

/-- Integer rendering with thousands separators. -/
def intWithCommas (n : ℤ) : String :=
  (if n < 0 then "-" else "") ++ commaGroup (Nat.repr n.natAbs)

/-- Python `f"{value:,.0f}"` on an exact value: round half-to-even to an
integer and insert thousands separators. -/
def fmt0f (q : ℚ) : String := intWithCommas (roundHalfEven q)

/-- Python `f"{value:.1f}"` on an exact value: one decimal place,
half-to-even, no separators. -/
def fmt1f (q : ℚ) : String :=
  let n := roundHalfEven (q * 10)
  (if n < 0 then "-" else "") ++ Nat.repr (n.natAbs / 10) ++ "." ++ Nat.repr (n.natAbs % 10)

/-- `format_value(value, metric_name)` from `dashboard.py`. -/
def format_value (value : PyVal) (metric_name : String := "") : String :=
  match value with
  | nan => "N/A"
  | num v =>
    let metric_lower := strToLower metric_name
    -- Check if it's a currency metric
    if ["cost", "salary", "price", "revenue", "budget"].any
        (fun keyword => strContains metric_lower.data keyword.data) then
      "$" ++ fmt0f v
    -- Check if it's a percentage metric
    else if ["rate", "percent", "%"].any
        (fun keyword => strContains metric_lower.data keyword.data) then
      fmt1f v ++ "%"
    -- Check if it's a score metric
    else if strContains metric_lower.data "score".data then
      fmt1f v
    -- Default: number with commas
    else
      fmt0f v

/-- C9: `format_value` renders NaN as "N/A" and otherwise classifies the
metric name by case-insensitive substring match with currency before
percentage before score before the plain default — so a name matching
both a currency and a percentage keyword formats as currency. -/
theorem C9_format_value (v : ℚ) (metric_name : String) :
    format_value nan metric_name = "N/A"
  ∧ (matchesKeyword metric_name ["cost", "salary", "price", "revenue", "budget"] →
      format_value (num v) metric_name = "$" ++ fmt0f v)
  ∧ (¬ matchesKeyword metric_name ["cost", "salary", "price", "revenue", "budget"] →
      matchesKeyword metric_name ["rate", "percent", "%"] →
      format_value (num v) metric_name = fmt1f v ++ "%")
  ∧ (¬ matchesKeyword metric_name ["cost", "salary", "price", "revenue", "budget"] →
      ¬ matchesKeyword metric_name ["rate", "percent", "%"] →
      matchesKeyword metric_name ["score"] →
      format_value (num v) metric_name = fmt1f v)
  ∧ (¬ matchesKeyword metric_name ["cost", "salary", "price", "revenue", "budget"] →
      ¬ matchesKeyword metric_name ["rate", "percent", "%"] →
      ¬ matchesKeyword metric_name ["score"] →
      format_value (num v) metric_name = fmt0f v) := by
  have hscore : strContains (strToLower metric_name).data "score".data = true
      ↔ matchesKeyword metric_name ["score"] := by
    simp [strContains_iff, matchesKeyword]
  refine ⟨rfl, fun hc => ?_, fun hc hp => ?_, fun hc hp hs => ?_, fun hc hp hs => ?_⟩
  · simp only [format_value]
    rw [if_pos ((anyKeyword_iff _ _).mpr hc)]
  · simp only [format_value]
    rw [if_neg (fun h => hc ((anyKeyword_iff _ _).mp h)),
      if_pos ((anyKeyword_iff _ _).mpr hp)]
  · simp only [format_value]
    rw [if_neg (fun h => hc ((anyKeyword_iff _ _).mp h)),
      if_neg (fun h => hp ((anyKeyword_iff _ _).mp h)),
      if_pos (hscore.mpr hs)]
  · simp only [format_value]
    rw [if_neg (fun h => hc ((anyKeyword_iff _ _).mp h)),
      if_neg (fun h => hp ((anyKeyword_iff _ _).mp h)),
      if_neg (fun h => hs (hscore.mp h))]

theorem C9_witness :
    format_value (num 100) "Cost Rate" = "$100"
  ∧ matchesKeyword "Cost Rate" ["rate", "percent", "%"] := by
  have hc : matchesKeyword "Cost Rate" ["cost", "salary", "price", "revenue", "budget"] :=
    ⟨"cost", by simp, [], " rate".data, by decide⟩
  have hp : matchesKeyword "Cost Rate" ["rate", "percent", "%"] :=
    ⟨"rate", by simp, "cost ".data, [], by decide⟩
  refine ⟨?_, hp⟩
  rw [(C9_format_value 100 "Cost Rate").2.1 hc]
  have h100 : ⌊(100 : ℚ)⌋ = 100 := by norm_num
  have hr : roundHalfEven 100 = 100 := by
    rw [roundHalfEven, h100]
    norm_num
  rw [fmt0f, hr]
  decide

/-- One row of `Performance.csv`. -/
structure Observation where
  initiative_id : String
  metric : String
  year : ℤ
  actual_value : PyVal
  data_source : String
  quality : String
deriving DecidableEq

/-- `get_latest_performance(performance_df, initiative_id, metric)` from
`dashboard.py`: filter on exact equality of both keys, sort by year
descending, take the first row.  (pandas' default sort is unstable, so
the choice among duplicate-year rows is unspecified; the embedding
realises one admissible choice.) -/
def get_latest_performance (performance : List Observation)
    (initiative_id metric : String) : Option Observation :=
  let filtered := performance.filter
    (fun row => row.initiative_id == initiative_id && row.metric == metric)
  if filtered.isEmpty then none
  else (filtered.mergeSort (fun a b => decide (b.year ≤ a.year))).head?

/-- C6: `get_latest_performance` matches rows by exact string equality
on both keys, returns `none` exactly when nothing matches, and
otherwise returns a matching row of maximal year. -/
theorem C6_latest_performance (performance : List Observation)
    (initiative_id metric : String) :
    (get_latest_performance performance initiative_id metric = none ↔
      performance.filter
        (fun row => row.initiative_id == initiative_id && row.metric == metric) = [])
  ∧ (∀ r, get_latest_performance performance initiative_id metric = some r →
      r ∈ performance ∧ r.initiative_id = initiative_id ∧ r.metric = metric
      ∧ ∀ r' ∈ performance, r'.initiative_id = initiative_id → r'.metric = metric →
          r'.year ≤ r.year) := by
  set le : Observation → Observation → Bool := fun a b => decide (b.year ≤ a.year) with hle
  set f := performance.filter
    (fun row => row.initiative_id == initiative_id && row.metric == metric) with hf
  have hperm : (f.mergeSort le).Perm f := List.mergeSort_perm f le
  cases hfe : f.isEmpty with
  | true =>
    have hnil : f = [] := List.isEmpty_iff.mp hfe
    constructor
    · simp [get_latest_performance, ← hf, hfe, hnil]
    · intro r hr
      rw [get_latest_performance] at hr
      simp only [← hf, hfe, if_true] at hr
      cases hr
  | false =>
    have hne : f ≠ [] := by
      intro h
      rw [h] at hfe
      simp at hfe
    have hmne : f.mergeSort le ≠ [] := by
      intro h
      exact hne (List.Perm.eq_nil (h ▸ hperm).symm)
    obtain ⟨r0, rest, hcons⟩ := List.exists_cons_of_ne_nil hmne
    have hget : get_latest_performance performance initiative_id metric = some r0 := by
      rw [get_latest_performance]
      simp only [← hf, hfe, Bool.false_eq_true, if_false, hcons, List.head?_cons]
    have hsorted : (f.mergeSort le).Pairwise (fun a b => le a b) :=
      List.sorted_mergeSort
        (fun a b c hab hbc => by
          simp only [hle, decide_eq_true_eq] at hab hbc ⊢
          exact le_trans hbc hab)
        (fun a b => by
          simp only [hle]
          rcases le_total a.year b.year with h | h <;> simp [h])
        f
    have hmax : ∀ r' ∈ f, r'.year ≤ r0.year := by
      intro r' hr'
      rcases (hperm.mem_iff.mpr hr' : r' ∈ f.mergeSort le) with hmem
      rw [hcons] at hmem
      rcases List.mem_cons.mp hmem with rfl | hmem'
      · exact le_refl _
      · have := (List.pairwise_cons.mp (hcons ▸ hsorted)).1 r' hmem'
        simpa [hle] using this
    have hr0f : r0 ∈ f := hperm.mem_iff.mp (hcons ▸ List.mem_cons_self r0 rest)
    have hr0 := List.mem_filter.mp (hf ▸ hr0f)
    constructor
    · rw [hget]
      constructor
      · intro h; cases h
      · intro h; exact absurd (hf ▸ h) hne
    · intro r hr
      rw [hget] at hr
      cases hr
      refine ⟨hr0.1, ?_, ?_, ?_⟩
      · have := hr0.2
        simp only [Bool.and_eq_true, beq_iff_eq] at this
        exact this.1
      · have := hr0.2
        simp only [Bool.and_eq_true, beq_iff_eq] at this
        exact this.2
      · intro r' hr'p hi hm
        exact hmax r' (hf ▸ List.mem_filter.mpr ⟨hr'p, by simp [hi, hm]⟩)

theorem C6_witness :
    get_latest_performance
      [⟨"I1", "M", 2019, num 1, "s", "q"⟩,
       ⟨"I1", "M", 2021, num 2, "s", "q"⟩,
       ⟨"I1", "M", 2020, num 3, "s", "q"⟩] "I1" "M" =
      some ⟨"I1", "M", 2021, num 2, "s", "q"⟩ := by
  obtain ⟨hiff, hmax⟩ := C6_latest_performance
    [⟨"I1", "M", 2019, num 1, "s", "q"⟩,
     ⟨"I1", "M", 2021, num 2, "s", "q"⟩,
     ⟨"I1", "M", 2020, num 3, "s", "q"⟩] "I1" "M"
  cases hres : get_latest_performance
      [⟨"I1", "M", 2019, num 1, "s", "q"⟩,
       ⟨"I1", "M", 2021, num 2, "s", "q"⟩,
       ⟨"I1", "M", 2020, num 3, "s", "q"⟩] "I1" "M" with
  | none =>
    rw [hres] at hiff
    have := hiff.mp rfl
    revert this
    decide
  | some r =>
    obtain ⟨hmem, -, -, hy⟩ := hmax r hres
    have h2021 := hy ⟨"I1", "M", 2021, num 2, "s", "q"⟩ (by simp) rfl rfl
    have hcases : r = ⟨"I1", "M", 2019, num 1, "s", "q"⟩
        ∨ r = ⟨"I1", "M", 2021, num 2, "s", "q"⟩
        ∨ r = ⟨"I1", "M", 2020, num 3, "s", "q"⟩ := by
      simpa using hmem
    rcases hcases with rfl | rfl | rfl
    · exact absurd h2021 (by norm_num)
    · rfl
    · exact absurd h2021 (by norm_num)

/-- One row of `Evidence.csv`. -/
structure EvidenceRecord where
  initiative_id : String
  evidence_type : String
  confidence_score : ℚ
  link_summary : String
  metric : String
deriving DecidableEq

/-- The match set of `get_evidence_grade`: filter by initiative, then by
metric when the evidence dataset carries a `Metric` column and a metric
argument was supplied. -/
def matchedEvidence (evidence : List EvidenceRecord) (hasMetricColumn : Bool)
    (initiative_id : String) (metric : Option String) : List EvidenceRecord :=
  let filtered := evidence.filter (fun row => row.initiative_id == initiative_id)
  if hasMetricColumn && metric.isSome then
    filtered.filter (fun row => some row.metric == metric)
  else filtered

/-- pandas' `.mean()` of the confidence column: sum over count. -/
def avgConfidence (records : List EvidenceRecord) : ℚ :=
  (records.map (fun row => row.confidence_score)).sum / records.length

/-- `get_evidence_grade(evidence_df, initiative_id, metric)` from
`dashboard.py`: `none` for the `(None, None, None)` sentinel, otherwise
`some (grade, matched records, average confidence)`. -/
def get_evidence_grade (evidence : List EvidenceRecord) (hasMetricColumn : Bool)
    (initiative_id : String) (metric : Option String) :
    Option (String × List EvidenceRecord × ℚ) :=
  let filtered := matchedEvidence evidence hasMetricColumn initiative_id metric
  if filtered.isEmpty then none
  else
    let avg_confidence := avgConfidence filtered
    -- Grade based on confidence
    let grade :=
      if avg_confidence ≥ 2.5 then "A"
      else if avg_confidence ≥ 2.0 then "B"
      else if avg_confidence ≥ 1.5 then "C"
      else "D"
    some (grade, filtered, avg_confidence)

/-- The grade thresholds of `get_evidence_grade`, as two-sided
characterisations. -/
theorem gradeFor_iff (x : ℚ) (g : String)
    (hg : g = if x ≥ 2.5 then "A" else if x ≥ 2.0 then "B"
      else if x ≥ 1.5 then "C" else "D") :
    (g = "A" ↔ 2.5 ≤ x) ∧ (g = "B" ↔ 2 ≤ x ∧ x < 2.5)
  ∧ (g = "C" ↔ 1.5 ≤ x ∧ x < 2) ∧ (g = "D" ↔ x < 1.5) := by
  subst hg
  split_ifs with h1 h2 h3
  · exact ⟨iff_of_true rfl h1,
      iff_of_false (by decide) (fun hx => by linarith [hx.2]),
      iff_of_false (by decide) (fun hx => by linarith [hx.2]),
      iff_of_false (by decide) (fun hx => by linarith)⟩
  · have h1' : x < 2.5 := not_le.mp h1
    exact ⟨iff_of_false (by decide) (fun hx => by linarith),
      iff_of_true rfl ⟨by linarith, by linarith⟩,
      iff_of_false (by decide) (fun hx => by linarith [hx.2]),
      iff_of_false (by decide) (fun hx => by linarith)⟩
  · have h1' : x < 2.5 := not_le.mp h1
    have h2' : x < 2 := by
      have := not_le.mp h2
      linarith
    exact ⟨iff_of_false (by decide) (fun hx => by linarith),
      iff_of_false (by decide) (fun hx => by linarith [hx.1]),
      iff_of_true rfl ⟨by linarith, h2'⟩,
      iff_of_false (by decide) (fun hx => by linarith)⟩
  · have h3' : x < 1.5 := not_le.mp h3
    exact ⟨iff_of_false (by decide) (fun hx => by linarith),
      iff_of_false (by decide) (fun hx => by linarith [hx.1]),
      iff_of_false (by decide) (fun hx => by linarith [hx.1]),
      iff_of_true rfl h3'⟩

/-- C5: the evidence grader returns the sentinel exactly on an empty
match set, and otherwise the arithmetic mean of the matched confidence
scores with a letter grade by inclusive lower bounds 2.5/2.0/1.5; no
range validation is applied to the scores (they range over all of ℚ
here). -/
theorem C5_evidence_grade (evidence : List EvidenceRecord) (hasMetricColumn : Bool)
    (initiative_id : String) (metric : Option String) :
    (matchedEvidence evidence hasMetricColumn initiative_id metric = [] →
      get_evidence_grade evidence hasMetricColumn initiative_id metric = none)
  ∧ (matchedEvidence evidence hasMetricColumn initiative_id metric ≠ [] →
      ∃ g : String,
        get_evidence_grade evidence hasMetricColumn initiative_id metric =
          some (g, matchedEvidence evidence hasMetricColumn initiative_id metric,
            avgConfidence (matchedEvidence evidence hasMetricColumn initiative_id metric))
        ∧ (g = "A" ↔
            2.5 ≤ avgConfidence (matchedEvidence evidence hasMetricColumn initiative_id metric))
        ∧ (g = "B" ↔
            2 ≤ avgConfidence (matchedEvidence evidence hasMetricColumn initiative_id metric)
            ∧ avgConfidence (matchedEvidence evidence hasMetricColumn initiative_id metric) < 2.5)
        ∧ (g = "C" ↔
            1.5 ≤ avgConfidence (matchedEvidence evidence hasMetricColumn initiative_id metric)
            ∧ avgConfidence (matchedEvidence evidence hasMetricColumn initiative_id metric) < 2)
        ∧ (g = "D" ↔
            avgConfidence (matchedEvidence evidence hasMetricColumn initiative_id metric) < 1.5)) := by
  set m := matchedEvidence evidence hasMetricColumn initiative_id metric with hm
  constructor
  · intro h
    simp [get_evidence_grade, ← hm, h]
  · intro h
    have hne : m.isEmpty = false := by
      obtain ⟨a, l, hal⟩ := List.exists_cons_of_ne_nil h
      rw [hal]
      rfl
    obtain ⟨hA, hB, hC, hD⟩ := gradeFor_iff (avgConfidence m)
      (if avgConfidence m ≥ 2.5 then "A" else if avgConfidence m ≥ 2.0 then "B"
       else if avgConfidence m ≥ 1.5 then "C" else "D") rfl
    refine ⟨_, ?_, hA, hB, hC, hD⟩
    simp only [get_evidence_grade, ← hm, hne, Bool.false_eq_true, if_false]

theorem C5_witness :
    get_evidence_grade [⟨"I1", "RCT", 2.5, "link", "m"⟩] true "I1" (some "m") =
      some ("A", [⟨"I1", "RCT", 2.5, "link", "m"⟩], 2.5)
  ∧ get_evidence_grade [⟨"I1", "QED", 2.49999, "link", "m"⟩] true "I1" (some "m") =
      some ("B", [⟨"I1", "QED", 2.49999, "link", "m"⟩], 2.49999) := by
  constructor
  · have hm : matchedEvidence [⟨"I1", "RCT", 2.5, "link", "m"⟩] true "I1" (some "m") =
        [⟨"I1", "RCT", 2.5, "link", "m"⟩] := by
      simp [matchedEvidence]
    have havg : avgConfidence [(⟨"I1", "RCT", 2.5, "link", "m"⟩ : EvidenceRecord)] = 2.5 := by
      simp [avgConfidence]
    obtain ⟨g, hres, hA, -, -, -⟩ :=
      (C5_evidence_grade [⟨"I1", "RCT", 2.5, "link", "m"⟩] true "I1" (some "m")).2
        (by simp [hm])
    rw [hm, havg] at hres hA
    rw [hA.mpr (by norm_num)] at hres
    exact hres
  · have hm : matchedEvidence [⟨"I1", "QED", 2.49999, "link", "m"⟩] true "I1" (some "m") =
        [⟨"I1", "QED", 2.49999, "link", "m"⟩] := by
      simp [matchedEvidence]
    have havg : avgConfidence [(⟨"I1", "QED", 2.49999, "link", "m"⟩ : EvidenceRecord)] =
        2.49999 := by
      simp [avgConfidence]
    obtain ⟨g, hres, -, hB, -, -⟩ :=
      (C5_evidence_grade [⟨"I1", "QED", 2.49999, "link", "m"⟩] true "I1" (some "m")).2
        (by simp [hm])
    rw [hm, havg] at hres hB
    rw [hB.mpr (by norm_num)] at hres
    exact hres

/-- Every status produced by `calculate_progress` is one of the three
literals. -/
theorem calculate_progress_status_cases (b a t : PyVal) (lib : Bool) (p : PyVal)
    (st c : String) (h : calculate_progress b a t lib = some (p, st, c)) :
    st = "On Track" ∨ st = "At Risk" ∨ st = "Off Track" := by
  simp only [calculate_progress] at h
  split at h
  · cases h
  · split at h
    · cases h
    · split at h
      · simp only [Option.some.injEq, Prod.mk.injEq] at h
        exact Or.inl h.2.1.symm
      · split at h
        · simp only [Option.some.injEq, Prod.mk.injEq] at h
          exact Or.inr (Or.inl h.2.1.symm)
        · simp only [Option.some.injEq, Prod.mk.injEq] at h
          exact Or.inr (Or.inr h.2.1.symm)

/-- One row of `Expectations.csv` (the fields the summary loop reads). -/
structure Expectation where
  initiative_id : String
  metric : String
  baseline : PyVal
  target_2030 : PyVal
deriving DecidableEq

/-- The per-row outcome of the summary loop of `main` (lines 992-1010 of
`dashboard.py`): the status of the row's computed progress, or `none`
when the row has no observation or no computable progress. -/
def rowStatus (performance : List Observation) (row : Expectation) : Option String :=
  match get_latest_performance performance row.initiative_id row.metric with
  | none => none
  | some latest_perf =>
    match calculate_progress row.baseline latest_perf.actual_value row.target_2030
        (is_lower_better_metric row.metric) with
    | none => none
    | some (_, status, _) => some status

/-- The summary-statistics pass of `main` (lines 986-1010 of
`dashboard.py`), returning (total, on_track, at_risk, off_track).
`rowStatus` is the loop body's lookup-then-compute sequence factored
out. -/
def summary_counts (filtered_expectations : List Expectation)
    (performance : List Observation) : ℕ × ℕ × ℕ × ℕ :=
  let total_metrics := filtered_expectations.length
  let counts := filtered_expectations.foldl
    (fun (acc : ℕ × ℕ × ℕ) row =>
      match rowStatus performance row with
      | none => acc
      | some status =>
        if status == "On Track" then (acc.1 + 1, acc.2.1, acc.2.2)
        else if status == "At Risk" then (acc.1, acc.2.1 + 1, acc.2.2)
        else (acc.1, acc.2.1, acc.2.2 + 1))
    (0, 0, 0)
  (total_metrics, counts.1, counts.2.1, counts.2.2)

/-- Every status surfaced by `rowStatus` is one of the three literals. -/
theorem rowStatus_cases (performance : List Observation) (row : Expectation) (st : String)
    (h : rowStatus performance row = some st) :
    st = "On Track" ∨ st = "At Risk" ∨ st = "Off Track" := by
  rw [rowStatus] at h
  split at h
  · cases h
  · split at h
    · cases h
    · rename_i latest_perf heq p stx cx hc
      cases h
      exact calculate_progress_status_cases _ _ _ _ _ _ _ hc

/-- The summary fold, characterised by `countP` over the three status
buckets. -/
theorem summary_fold (performance : List Observation) (rows : List Expectation)
    (a b c : ℕ) :
    rows.foldl
      (fun (acc : ℕ × ℕ × ℕ) row =>
        match rowStatus performance row with
        | none => acc
        | some status =>
          if status == "On Track" then (acc.1 + 1, acc.2.1, acc.2.2)
          else if status == "At Risk" then (acc.1, acc.2.1 + 1, acc.2.2)
          else (acc.1, acc.2.1, acc.2.2 + 1)) (a, b, c) =
      (a + rows.countP (fun row => rowStatus performance row == some "On Track"),
       b + rows.countP (fun row => rowStatus performance row == some "At Risk"),
       c + rows.countP (fun row => rowStatus performance row == some "Off Track")) := by
  induction rows generalizing a b c with
  | nil => simp
  | cons r rs ih =>
    rw [List.foldl_cons]
    cases hrs : rowStatus performance r with
    | none =>
      simp only [hrs]
      rw [ih]
      refine Prod.ext ?_ (Prod.ext ?_ ?_) <;> simp [List.countP_cons, hrs]
    | some st =>
      rcases rowStatus_cases performance r st hrs with rfl | rfl | rfl <;>
        (simp only [hrs]
         rw [ih]
         refine Prod.ext ?_ (Prod.ext ?_ ?_) <;>
           (simp [List.countP_cons, hrs]
            try omega))

/-- C7: the summary pass counts every expectation row in `total`, and
counts a row in a status bucket exactly when its latest observation
exists and yields a non-null progress of that status; rows with no
observation or no computable progress are silently excluded from the
buckets.  The claim's 3-row example (no observation / progress 90 /
progress 60) yields (3, 1, 1, 0). -/
theorem C7_summary_aggregator :
    (∀ (filtered_expectations : List Expectation) (performance : List Observation),
      summary_counts filtered_expectations performance =
        (filtered_expectations.length,
         filtered_expectations.countP
           (fun row => rowStatus performance row == some "On Track"),
         filtered_expectations.countP
           (fun row => rowStatus performance row == some "At Risk"),
         filtered_expectations.countP
           (fun row => rowStatus performance row == some "Off Track")))
  ∧ summary_counts
      [⟨"I1", "users", num 0, num 100⟩,
       ⟨"I1", "reach", num 0, num 100⟩,
       ⟨"I1", "adoption", num 0, num 100⟩]
      [⟨"I1", "reach", 2024, num 90, "s", "q"⟩,
       ⟨"I1", "adoption", 2024, num 60, "s", "q"⟩] = (3, 1, 1, 0) := by
  have hgen : ∀ (filtered_expectations : List Expectation) (performance : List Observation),
      summary_counts filtered_expectations performance =
        (filtered_expectations.length,
         filtered_expectations.countP
           (fun row => rowStatus performance row == some "On Track"),
         filtered_expectations.countP
           (fun row => rowStatus performance row == some "At Risk"),
         filtered_expectations.countP
           (fun row => rowStatus performance row == some "Off Track")) := by
    intro filtered_expectations performance
    rw [summary_counts, summary_fold]
    simp
  refine ⟨hgen, ?_⟩
  rw [hgen]
  have h1 : rowStatus
      [⟨"I1", "reach", 2024, num 90, "s", "q"⟩, ⟨"I1", "adoption", 2024, num 60, "s", "q"⟩]
      ⟨"I1", "users", num 0, num 100⟩ = none := by
    have hg : get_latest_performance
        [⟨"I1", "reach", 2024, num 90, "s", "q"⟩, ⟨"I1", "adoption", 2024, num 60, "s", "q"⟩]
        "I1" "users" = none := by
      simp [get_latest_performance]
    simp only [rowStatus, hg]
  have h2 : rowStatus
      [⟨"I1", "reach", 2024, num 90, "s", "q"⟩, ⟨"I1", "adoption", 2024, num 60, "s", "q"⟩]
      ⟨"I1", "reach", num 0, num 100⟩ = some "On Track" := by
    have hg : get_latest_performance
        [⟨"I1", "reach", 2024, num 90, "s", "q"⟩, ⟨"I1", "adoption", 2024, num 60, "s", "q"⟩]
        "I1" "reach" = some ⟨"I1", "reach", 2024, num 90, "s", "q"⟩ := by
      simp [get_latest_performance]
    have hl : is_lower_better_metric "reach" = false := by decide
    have hc : calculate_progress (num 0) (num 90) (num 100) false =
        some (num 90, "On Track", "green") := by
      rw [calculate_progress_num]
      norm_num [progressQ, statusFor, clampQ]
    simp only [rowStatus, hg, hl, hc]
  have h3 : rowStatus
      [⟨"I1", "reach", 2024, num 90, "s", "q"⟩, ⟨"I1", "adoption", 2024, num 60, "s", "q"⟩]
      ⟨"I1", "adoption", num 0, num 100⟩ = some "At Risk" := by
    have hg : get_latest_performance
        [⟨"I1", "reach", 2024, num 90, "s", "q"⟩, ⟨"I1", "adoption", 2024, num 60, "s", "q"⟩]
        "I1" "adoption" = some ⟨"I1", "adoption", 2024, num 60, "s", "q"⟩ := by
      simp [get_latest_performance]
    have hl : is_lower_better_metric "adoption" = false := by decide
    have hc : calculate_progress (num 0) (num 60) (num 100) false =
        some (num 60, "At Risk", "orange") := by
      rw [calculate_progress_num]
      norm_num [progressQ, statusFor, clampQ]
    simp only [rowStatus, hg, hl, hc]
  simp [List.countP_cons, h1, h2, h3]

/-- `filtered[filtered['Year'] == year]['Actual Value'].iloc[0]`: the
value of the first row carrying the given year. -/
def firstValueAt (s : List (ℤ × ℚ)) (year : ℤ) : Option ℚ :=
  ((s.filter (fun p => p.1 == year)).head?).map Prod.snd

/-- Python's `range(lo, hi)` on integers. -/
def intRange (lo hi : ℤ) : List ℤ :=
  List.map (fun (i : ℕ) => lo + (i : ℤ)) (List.range (hi - lo).toNat)

/-- The projection-trace construction of `create_trend_chart` (lines
302-327 of `dashboard.py`), on the filtered series of (year, actual
value) points, with the horizon year a parameter (the source hard-codes
horizon 2030 via `range(int(latest_year) + 1, 2031)`; see
`create_trend_chart_projection`).  `none` means no projection trace is
added to the chart. -/
def trendProjection (s : List (ℤ × ℚ)) (target_2030 : Option ℚ) (horizonYear : ℤ) :
    Option (List (ℤ × ℚ)) :=
  match target_2030 with
  | none => none
  | some _ =>
    -- Simple linear projection (if we have at least 2 data points)
    if 2 ≤ s.length then
      match ((s.map Prod.fst).mergeSort (fun a b => decide (a ≤ b))).reverse with
      | latest_year :: prev_year :: _ =>
        if latest_year ≠ prev_year then
          match firstValueAt s latest_year, firstValueAt s prev_year with
          | some latest_value, some prev_value =>
            let slope := (latest_value - prev_value) / ((latest_year - prev_year : ℤ) : ℚ)
            let projection_years := intRange (latest_year + 1) (horizonYear + 1)
            if projection_years.isEmpty then none
            else some ((latest_year, latest_value) ::
              projection_years.map (fun year =>
                (year, latest_value + slope * ((year - latest_year : ℤ) : ℚ))))
          | _, _ => none
        else none
      | _ => none
    else none

/-- The projection exactly as the dashboard calls it: horizon 2030. -/
def create_trend_chart_projection (s : List (ℤ × ℚ)) (target_2030 : Option ℚ) :
    Option (List (ℤ × ℚ)) :=
  trendProjection s target_2030 2030

theorem intRange_mem (lo hi y : ℤ) : y ∈ intRange lo hi ↔ lo ≤ y ∧ y < hi := by
  unfold intRange
  rw [List.mem_map]
  constructor
  · rintro ⟨i, hi', rfl⟩
    rw [List.mem_range] at hi'
    omega
  · rintro ⟨h1, h2⟩
    refine ⟨(y - lo).toNat, ?_, ?_⟩
    · rw [List.mem_range]
      omega
    · omega

theorem intRange_eq_nil_iff (lo hi : ℤ) : intRange lo hi = [] ↔ hi ≤ lo := by
  rw [List.eq_nil_iff_forall_not_mem]
  constructor
  · intro h
    by_contra hc
    push_neg at hc
    exact h lo ((intRange_mem lo hi lo).mpr ⟨le_refl lo, hc⟩)
  · intro h y hy
    have := (intRange_mem lo hi y).mp hy
    omega

/-- `trendProjection` on a series whose years are strictly increasing,
written with the two most recent points explicit. -/
theorem trendProjection_strict (init : List (ℤ × ℚ)) (py ly : ℤ) (pv lv : ℚ)
    (tgt : ℚ) (hz : ℤ)
    (hsorted : ((init ++ [(py, pv), (ly, lv)]).map Prod.fst).Pairwise (· < ·)) :
    trendProjection (init ++ [(py, pv), (ly, lv)]) (some tgt) hz =
      if ly < hz then
        some ((ly, lv) :: (intRange (ly + 1) (hz + 1)).map
          (fun year => (year, lv + (lv - pv) / ((ly - py : ℤ) : ℚ) * ((year - ly : ℤ) : ℚ))))
      else none := by
  have hys : (init ++ [(py, pv), (ly, lv)]).map Prod.fst = init.map Prod.fst ++ [py, ly] := by
    simp
  have hpair : (init.map Prod.fst ++ [py, ly]).Pairwise (· < ·) := hys ▸ hsorted
  obtain ⟨hpinit, hptail, hcross⟩ := List.pairwise_append.mp hpair
  have hpyly : py < ly := (List.pairwise_cons.mp hptail).1 ly (by simp)
  have hlt_ly : ∀ x ∈ init.map Prod.fst, x < ly := fun x hx => hcross x hx ly (by simp)
  have hlt_py : ∀ x ∈ init.map Prod.fst, x < py := fun x hx => hcross x hx py (by simp)
  have hms : ((init ++ [(py, pv), (ly, lv)]).map Prod.fst).mergeSort
      (fun a b => decide (a ≤ b)) = init.map Prod.fst ++ [py, ly] := by
    rw [hys]
    exact List.mergeSort_of_sorted (hpair.imp (fun hab => by simp [le_of_lt hab]))
  have hlen : 2 ≤ (init ++ [(py, pv), (ly, lv)]).length := by
    simp
  have hfl : firstValueAt (init ++ [(py, pv), (ly, lv)]) ly = some lv := by
    rw [firstValueAt]
    have h1 : init.filter (fun p => p.1 == ly) = [] := by
      rw [List.filter_eq_nil_iff]
      intro p hp
      have := hlt_ly p.1 (List.mem_map_of_mem Prod.fst hp)
      simp [ne_of_lt this]
    have h2 : (py == ly) = false := by simp [ne_of_lt hpyly]
    rw [List.filter_append, h1]
    simp [List.filter, h2]
  have hfp : firstValueAt (init ++ [(py, pv), (ly, lv)]) py = some pv := by
    rw [firstValueAt]
    have h1 : init.filter (fun p => p.1 == py) = [] := by
      rw [List.filter_eq_nil_iff]
      intro p hp
      have := hlt_py p.1 (List.mem_map_of_mem Prod.fst hp)
      simp [ne_of_lt this]
    have h2 : (ly == py) = false := by simp [ne_of_gt hpyly]
    rw [List.filter_append, h1]
    simp [List.filter, h2]
  simp only [trendProjection]
  rw [if_pos hlen, hms]
  rw [show (init.map Prod.fst ++ [py, ly]).reverse = ly :: py :: (init.map Prod.fst).reverse
    by simp]
  split
  case h_2 hno => exact absurd rfl (hno ly py (init.map Prod.fst).reverse)
  case h_1 latest_year prev_year rest heq =>
  injection heq with e1 heq2
  injection heq2 with e2 heq3
  subst e1
  subst e2
  rw [if_pos (ne_of_gt hpyly), hfl, hfp]
  by_cases hlh : ly < hz
  · have hne : (intRange (ly + 1) (hz + 1)).isEmpty = false := by
      have h0 : intRange (ly + 1) (hz + 1) ≠ [] := by
        rw [Ne, intRange_eq_nil_iff]
        omega
      obtain ⟨x, xs, hx⟩ := List.exists_cons_of_ne_nil h0
      rw [hx]
      rfl
    rw [if_pos hlh]
    simp only [hne, Bool.false_eq_true, if_false]
  · have he : (intRange (ly + 1) (hz + 1)).isEmpty = true := by
      have h0 : intRange (ly + 1) (hz + 1) = [] := (intRange_eq_nil_iff _ _).mpr (by omega)
      rw [h0]
      rfl
    rw [if_neg hlh]
    simp only [he, if_true]

/-- C4 (amended): the projection trace is produced iff the target is
non-null, the series has at least two points, the two most recent years
differ, and additionally the latest year lies strictly below the
horizon; when produced it is the anchor point followed by one point per
integer year from latest+1 through the horizon inclusive, with the
two-point slope; when the latest year reaches the horizon no trace at
all is produced (rather than an anchor-only one); the dashboard
instantiates the horizon at 2030. -/
theorem C4_trend_projection (init tie_init : List (ℤ × ℚ)) (py ly y : ℤ)
    (pv lv va vb tgt tie_tgt : ℚ) (hz tie_hz : ℤ)
    (hsorted : ((init ++ [(py, pv), (ly, lv)]).map Prod.fst).Pairwise (· < ·))
    (htie : ((tie_init ++ [(y, va), (y, vb)]).map Prod.fst).Pairwise (· ≤ ·)) :
    (∀ (s : List (ℤ × ℚ)) (h' : ℤ), trendProjection s none h' = none)
  ∧ (∀ (s : List (ℤ × ℚ)) (t : ℚ) (h' : ℤ), s.length < 2 →
      trendProjection s (some t) h' = none)
  ∧ trendProjection (init ++ [(py, pv), (ly, lv)]) (some tgt) hz =
      (if ly < hz then
        some ((ly, lv) :: (intRange (ly + 1) (hz + 1)).map
          (fun year => (year, lv + (lv - pv) / ((ly - py : ℤ) : ℚ) * ((year - ly : ℤ) : ℚ))))
      else none)
  ∧ (∀ yy : ℤ, yy ∈ intRange (ly + 1) (hz + 1) ↔ ly + 1 ≤ yy ∧ yy ≤ hz)
  ∧ trendProjection (tie_init ++ [(y, va), (y, vb)]) (some tie_tgt) tie_hz = none
  ∧ (∀ (s : List (ℤ × ℚ)) (t : Option ℚ),
      create_trend_chart_projection s t = trendProjection s t 2030) := by
  refine ⟨fun s h' => rfl, fun s t h' hlt => ?_, trendProjection_strict _ _ _ _ _ _ _ hsorted,
    fun yy => ?_, ?_, fun s t => rfl⟩
  · simp only [trendProjection]
    rw [if_neg (by omega)]
  · rw [intRange_mem]
    omega
  · have hys : (tie_init ++ [(y, va), (y, vb)]).map Prod.fst =
        tie_init.map Prod.fst ++ [y, y] := by
      simp
    have hms : ((tie_init ++ [(y, va), (y, vb)]).map Prod.fst).mergeSort
        (fun a b => decide (a ≤ b)) = tie_init.map Prod.fst ++ [y, y] := by
      rw [hys]
      exact List.mergeSort_of_sorted ((hys ▸ htie).imp (fun hab => by simp [hab]))
    have hlen : 2 ≤ (tie_init ++ [(y, va), (y, vb)]).length := by
      simp
    simp only [trendProjection]
    rw [if_pos hlen, hms]
    rw [show (tie_init.map Prod.fst ++ [y, y]).reverse =
        y :: y :: (tie_init.map Prod.fst).reverse by simp]
    split
    case h_2 hno => exact absurd rfl (hno y y (tie_init.map Prod.fst).reverse)
    case h_1 latest_year prev_year rest heq =>
    injection heq with e1 heq2
    injection heq2 with e2 heq3
    subst e1
    subst e2
    rw [if_neg (fun hne => hne rfl)]

theorem C4_witness :
    trendProjection [((2020 : ℤ), (100 : ℚ)), (2021, 120)] (some 200) 2023 =
      some [(2021, 120), (2022, 140), (2023, 160)] := by
  have hs : (([] ++ [((2020 : ℤ), (100 : ℚ)), (2021, 120)]).map Prod.fst).Pairwise
      (· < ·) := by
    norm_num [List.pairwise_cons]
  have ht : (([] ++ [((0 : ℤ), (0 : ℚ)), (0, 0)]).map Prod.fst).Pairwise (· ≤ ·) := by
    norm_num [List.pairwise_cons]
  have h3 := (C4_trend_projection [] [] 2020 2021 0 100 120 0 0 200 0 2023 0 hs ht).2.2.1
  rw [List.nil_append] at h3
  rw [h3, if_pos (by norm_num)]
  have hr : intRange (2021 + 1) (2023 + 1) = [2022, 2023] := by decide
  rw [hr]
  norm_num [List.map_cons, List.map_nil, Prod.ext_iff]

theorem C4_counterexample :
    trendProjection [((2030 : ℤ), (100 : ℚ)), (2031, 120)] (some 200) 2030 = none
  ∧ (some (200 : ℚ)).isSome = true
  ∧ 2 ≤ ([((2030 : ℤ), (100 : ℚ)), (2031, 120)] : List (ℤ × ℚ)).length
  ∧ (2031 : ℤ) ≠ 2030 := by
  refine ⟨?_, rfl, by norm_num, by norm_num⟩
  have hs : (([] ++ [((2030 : ℤ), (100 : ℚ)), (2031, 120)]).map Prod.fst).Pairwise
      (· < ·) := by
    norm_num [List.pairwise_cons]
  have h := trendProjection_strict [] 2030 2031 100 120 200 2030 hs
  rw [List.nil_append] at h
  rw [h, if_neg (by norm_num)]
